import Mathlib

/-!
Shallow embedding of the saasoft account-records editor
(src/stores/records.ts and src/views/HomeView.vue).

JavaScript strings are modelled as lists of characters (`Str`), null/undefined
as `Option`, and the Pinia store state as an explicit list of records that the
operations transform and return.
-/

namespace Saasoft

/-- A JavaScript string, modelled as its list of characters. -/
abbrev Str := List Char

/-- Embed a Lean string literal as a `Str`. -/
def str (s : String) : Str := s.data

/-- One tag label object, the shape stored in `Record.tags`: `{ text: string }`. -/
structure Label where
  text : Str
deriving DecidableEq, Repr

/-- The runtime content of a record's `tags` field.  The TypeScript type is
`{ text: string }[]`, but the commit controller writes the raw string through
`update(id, { tags: value })` when the edited string is empty, so at runtime
the field holds either an array of label objects or a raw string. -/
inductive TagsField where
  | labels (l : List Label)
  | raw (s : Str)
deriving DecidableEq, Repr

/-- `Record` from src/stores/records.ts: id, tags, type, login,
password (string | null). -/
structure Record where
  id : Nat
  tags : TagsField
  type : Str
  login : Str
  password : Option Str
deriving DecidableEq, Repr

/-- `Partial<Record>`: each field either absent or present with a value.
`password` can be present with the value null (`some none`). -/
structure RecordPatch where
  id : Option Nat := none
  tags : Option TagsField := none
  type : Option Str := none
  login : Option Str := none
  password : Option (Option Str) := none
deriving DecidableEq, Repr

/-- `Object.assign(record, updatedFields)`: every field named by the patch is
overwritten, every other field keeps the record's value. -/
def assignFields (r : Record) (p : RecordPatch) : Record :=
  { id := p.id.getD r.id
    tags := p.tags.getD r.tags
    type := p.type.getD r.type
    login := p.login.getD r.login
    password := p.password.getD r.password }

namespace RecordsStore

/-- The store's initial `records` state (src/stores/records.ts, lines 12-36). -/
def initialRecords : List Record :=
  [ { id := 1
      tags := .labels [⟨str "XXX"⟩]
      type := str "ldap"
      login := str ""
      password := some (str "") },
    { id := 2
      tags := .labels [⟨str "XXX"⟩, ⟨str "YYYYYYYYY"⟩]
      type := str "local"
      login := str "Значение"
      password := some (str "") },
    { id := 3
      tags := .labels []
      type := str ""
      login := str "Значение"
      password := some (str "Значение") } ]

/-- Getter `getRecordById`: `state.records.find((record) => record.id === id)`,
the first record whose id matches, if any. -/
def getRecordById (records : List Record) (id : Nat) : Option Record :=
  match records with
  | [] => none
  | r :: rest => if r.id = id then some r else getRecordById rest id

/-- Action `addRecord(newRecord)`: `this.records.push(newRecord)`. -/
def addRecord (records : List Record) (newRecord : Record) : List Record :=
  records ++ [newRecord]

/-- Action `updateRecord(id, updatedFields)`: `find` the first record whose id
matches and `Object.assign` the fields into it in place; records after the
first match are untouched, and a missing id is a silent no-op. -/
def updateRecord (records : List Record) (id : Nat) (updatedFields : RecordPatch) :
    List Record :=
  match records with
  | [] => []
  | r :: rest =>
      if r.id = id then assignFields r updatedFields :: rest
      else r :: updateRecord rest id updatedFields

/-- Action `removeRecord(id)`:
`this.records = this.records.filter((record) => record.id !== id)`. -/
def removeRecord (records : List Record) (id : Nat) : List Record :=
  records.filter (fun r => r.id ≠ id)

end RecordsStore

namespace HomeView

/-- The table's editable row view-model, projected to the data the logic
reads: the row id and each cell's current (string) value.  In the source a
cell also carries `fieldRef` (the live widget handle), `field`
('input'/'select') and `fieldProps` (input type, select items, rules); the
cell kinds and rule lists are fixed per column by `constructRow`, so they are
embedded as the per-column functions `cellKind` and `validateCell` below. -/
structure Row where
  id : Nat
  tagsValue : Str
  typeValue : Str
  loginValue : Str
  passwordValue : Str
deriving DecidableEq, Repr

/-- The table's columns (`columns` array plus the generic body-cell slot). -/
inductive Col where
  | tags
  | type
  | login
  | password
  | deletable
deriving DecidableEq, Repr

/-- A cell's `field` discriminator. -/
inductive FieldKind where
  | input
  | select
deriving DecidableEq, Repr

/-- `props.row[colName].field`: `constructRow` makes tags, login and password
cells inputs and the type cell a select; the deletable column has no cell
object on the row (`props.row['deletable']` is undefined). -/
def cellKind (c : Col) : Option FieldKind :=
  match c with
  | .tags => some .input
  | .login => some .input
  | .password => some .input
  | .type => some .select
  | .deletable => none

-- Validators for inputs

/-- `required`'s argument at runtime: a string, undefined, or a select item
object with `value`/`label` sub-fields (each possibly undefined). -/
inductive JsVal where
  | vstr (s : Str)
  | vundef
  | vsel (value : Option Str) (label : Option Str)
deriving DecidableEq, Repr

/-- A validation rule's result: `true`, or the localized error string. -/
inductive RuleResult where
  | ok
  | err (msg : Str)
deriving DecidableEq, Repr

def errorTextRequired : Str := str "Это обязательное поле"

/-- The `required` validator.  `typeof val === 'string'` selects the string
branch (where `val !== undefined` is vacuous); otherwise `val.value` is read,
which throws a TypeError when `val` itself is undefined — modelled as `none`
(no `RuleResult` is returned). -/
def required (val : JsVal) : Option RuleResult :=
  match val with
  | .vstr s => some (if s.length > 0 then .ok else .err errorTextRequired)
  | .vundef => none
  | .vsel value _ =>
      some (match value with
            | none => .err errorTextRequired
            | some s => if s.length > 0 then .ok else .err errorTextRequired)

/-- The error string `limitedLength` builds from its bound. -/
def errorTextMaxLen (n : Nat) : Str :=
  str "Максимальное количество символов - " ++ (Nat.repr n).data

/-- The `limitedLength` validator. -/
def limitedLength (val : Str) (n : Nat) : RuleResult :=
  if val.length ≤ n then .ok else .err (errorTextMaxLen n)

def ruleOk (r : RuleResult) : Bool :=
  match r with
  | .ok => true
  | .err _ => false

def ruleOkOpt (r : Option RuleResult) : Bool :=
  match r with
  | some .ok => true
  | _ => false

/-- `fieldRef.validate()`: run the rules `constructRow` attaches to the column
(tags: limitedLength 50; type: required; login and password: required and
limitedLength 100) on the cell's current string value; true iff every rule
returns true.  The deletable column has no editable cell and no rules. -/
def validateCell (row : Row) (c : Col) : Bool :=
  match c with
  | .tags => ruleOk (limitedLength row.tagsValue 50)
  | .type => ruleOkOpt (required (.vstr row.typeValue))
  | .login => ruleOkOpt (required (.vstr row.loginValue)) &&
      ruleOk (limitedLength row.loginValue 100)
  | .password => ruleOkOpt (required (.vstr row.passwordValue)) &&
      ruleOk (limitedLength row.passwordValue 100)
  | .deletable => false

-- Tags packing and unpacking

/-- JS `Array.prototype.join('; ')`. -/
def joinSemiSpace : List Str → Str
  | [] => []
  | [s] => s
  | s :: t :: rest => s ++ ';' :: ' ' :: joinSemiSpace (t :: rest)

/-- `unpackTags(tagsArray)`: a non-array (the raw-string case) returns `''`;
an array of labels is mapped to its texts and joined with `'; '`. -/
def unpackTags (tagsArray : TagsField) : Str :=
  match tagsArray with
  | .raw _ => []
  | .labels l => joinSemiSpace (l.map Label.text)

/-- A character JS `String.prototype.trim` removes (whitespace). -/
def isJsSpace (c : Char) : Bool := c.isWhitespace

/-- JS `String.prototype.trim`: strip leading and trailing whitespace. -/
def trim (s : Str) : Str :=
  ((s.dropWhile isJsSpace).reverse.dropWhile isJsSpace).reverse

/-- JS `String.prototype.split(';')`: the list of `';'`-separated segments
(`''.split(';')` is `['']`, and a trailing `';'` yields a trailing `''`). -/
def splitOnSemi : Str → List Str
  | [] => [[]]
  | c :: rest =>
      if c = ';' then [] :: splitOnSemi rest
      else
        match splitOnSemi rest with
        | [] => [[c]]
        | seg :: segs => (c :: seg) :: segs

/-- JS `Boolean` applied to a label object: an object is always truthy, so the
controller's `.filter(Boolean)` keeps every element. -/
def jsTruthy (_ : Label) : Bool := true

/-- The commit controller's tags transformation:
`value.split(';').map((item) => ({ text: item.trim() })).filter(Boolean)`. -/
def packTags (value : Str) : List Label :=
  ((splitOnSemi value).map (fun item => Label.mk (trim item))).filter jsTruthy

/-- The value the controller writes for a committed tags cell: the packed
label list when the raw string is non-empty, otherwise the raw string itself
(`value.length > 0` guards the transformation). -/
def tagsCommitValue (value : Str) : TagsField :=
  if value.length > 0 then .labels (packTags value) else .raw value

-- Row construction, add and delete

/-- `constructRow(record)`: project a record to a row; `unpackTags` never
returns nullish so `?? record.tags` never fires, and a null password shows as
`''` (`record?.password ?? ''`). -/
def constructRow (record : Record) : Row :=
  { id := record.id
    tagsValue := unpackTags record.tags
    typeValue := record.type
    loginValue := record.login
    passwordValue := record.password.getD [] }

/-- The `rows` ref's initial value: `recordsStore.records.map(constructRow)`. -/
def rows : List Row := RecordsStore.initialRecords.map constructRow

/-- JS `Array.prototype.findIndex`: the index of the first row whose id
matches, or -1 — never undefined. -/
def jsFindIndexRow (l : List Row) (id : Nat) : Int :=
  match l with
  | [] => -1
  | r :: rest =>
      if r.id = id then 0
      else
        let i := jsFindIndexRow rest id
        if i = -1 then -1 else i + 1

/-- JS `arr.slice(0, e)` with a possibly negative end index: a negative `e`
counts from the end (`max(length + e, 0)` elements are kept). -/
def jsSliceUpto (l : List Row) (e : Int) : List Row :=
  l.take (if e < 0 then ((l.length : Int) + e).toNat else e.toNat)

/-- JS `arr.slice(s)` for the non-negative starts the code produces
(`index + 1` with `index ≥ -1`). -/
def jsSliceFrom (l : List Row) (s : Int) : List Row :=
  l.drop s.toNat

/-- `deleteRow(id)` acting on the rows ref and the store: `findIndex`, then —
since `index !== undefined` is true for every number, -1 included — always
remove the record from the store and rebuild the rows as
`slice(0, index) ++ slice(index + 1)`. -/
def deleteRow (l : List Row) (store : List Record) (id : Nat) :
    List Row × List Record :=
  let index := jsFindIndexRow l id
  let store1 := RecordsStore.removeRecord store id
  let rows1 := jsSliceUpto l index ++ jsSliceFrom l (index + 1)
  (rows1, store1)

/-- `Math.max(...rows.map((obj) => obj.id))`, used only on a non-empty list
(for which the fold over `max` starting at 0 is the maximum id). -/
def maxIds (l : List Row) : Nat := (l.map Row.id).foldl max 0

/-- `addRow`'s `latestId`:
`rows.length > 0 ? Math.max(...rows.map((obj) => obj.id)) + 1 : 0`. -/
def latestIdOf (l : List Row) : Nat :=
  if l.length > 0 then maxIds l + 1 else 0

/-- `addRow`'s `newRecord`: the fresh id with empty tags, type, login and
password (the empty string, not null). -/
def emptyRecord (id : Nat) : Record :=
  { id := id
    tags := .labels []
    type := []
    login := []
    password := some [] }

/-- `addRow()` acting on the rows ref and the store: append the constructed
row and push the new record. -/
def addRow (l : List Row) (store : List Record) : List Row × List Record :=
  let newRecord := emptyRecord (latestIdOf l)
  (l ++ [constructRow newRecord], RecordsStore.addRecord store newRecord)

-- Cell visibility and the commit controller

/-- `passwordCellHide(props)` — despite the name, its result guards the
`v-if` that RENDERS the editable input cell: true for every non-password
input column, and for the password column exactly when the row's current type
is not 'ldap'. -/
def passwordCellHide (row : Row) (colName : Col) : Bool :=
  if cellKind colName = some FieldKind.input ∧ colName ≠ Col.password then true
  else if colName = Col.password ∧ row.typeValue ≠ str "ldap" then true
  else false

/-- The commit controller `updateRecord(props)` of HomeView.vue, acting on the
store: abort when the cell has no rendered `fieldRef` or validation fails;
transform a non-empty tags string; write `update(id, { [field]: value })`; and
when the committed field is `type` with value 'ldap', immediately issue a
second `update(id, { password: null })`.  The deletable column has no cell
and never reaches this handler. -/
def updateRecord (store : List Record) (row : Row) (c : Col) (hasFieldRef : Bool) :
    List Record :=
  if !hasFieldRef || !validateCell row c then store
  else
    match c with
    | .tags =>
        RecordsStore.updateRecord store row.id { tags := some (tagsCommitValue row.tagsValue) }
    | .type =>
        let s1 := RecordsStore.updateRecord store row.id { type := some row.typeValue }
        if row.typeValue = str "ldap" then
          RecordsStore.updateRecord s1 row.id { password := some none }
        else s1
    | .login =>
        RecordsStore.updateRecord store row.id { login := some row.loginValue }
    | .password =>
        RecordsStore.updateRecord store row.id { password := some (some row.passwordValue) }
    | .deletable => store

end HomeView

/-! ## Store lemmas -/

/-- `updateRecord` with an id no record has is the identity. -/
theorem updateRecord_not_found (s : List Record) (i : Nat) (p : RecordPatch)
    (h : ∀ r ∈ s, r.id ≠ i) : RecordsStore.updateRecord s i p = s := by
  induction s with
  | nil => rfl
  | cons a rest ih =>
      have ha : a.id ≠ i := h a (List.mem_cons_self a rest)
      simp only [RecordsStore.updateRecord, if_neg ha, List.cons.injEq, true_and]
      exact ih (fun r hr => h r (List.mem_cons_of_mem a hr))

/-- `updateRecord` keeps the list length. -/
theorem updateRecord_length (s : List Record) (i : Nat) (p : RecordPatch) :
    (RecordsStore.updateRecord s i p).length = s.length := by
  induction s with
  | nil => rfl
  | cons a rest ih =>
      by_cases ha : a.id = i <;> simp [RecordsStore.updateRecord, ha, ih]

/-- `updateRecord` patches exactly the first matching record. -/
theorem updateRecord_first_match (l₁ l₂ : List Record) (r : Record) (i : Nat)
    (p : RecordPatch) (h₁ : ∀ r' ∈ l₁, r'.id ≠ i) (hr : r.id = i) :
    RecordsStore.updateRecord (l₁ ++ r :: l₂) i p = l₁ ++ assignFields r p :: l₂ := by
  induction l₁ with
  | nil => simp [RecordsStore.updateRecord, hr]
  | cons a rest ih =>
      have ha : a.id ≠ i := h₁ a (List.mem_cons_self a rest)
      simp only [List.cons_append, RecordsStore.updateRecord, if_neg ha,
        List.cons.injEq, true_and]
      exact ih (fun r' h' => h₁ r' (List.mem_cons_of_mem a h'))

/-- Updating through a patch that does not rename the id
commutes with `getRecordById` on the first match. -/
theorem getRecordById_updateRecord (s : List Record) (i : Nat) (p : RecordPatch)
    (r : Record) (hid : p.id = none)
    (h : RecordsStore.getRecordById s i = some r) :
    RecordsStore.getRecordById (RecordsStore.updateRecord s i p) i
      = some (assignFields r p) := by
  induction s with
  | nil => simp [RecordsStore.getRecordById] at h
  | cons a rest ih =>
      by_cases ha : a.id = i
      · have har : a = r := by
          simpa [RecordsStore.getRecordById, ha] using h
        subst har
        have hpid : (assignFields a p).id = a.id := by
          simp [assignFields, hid]
        simp [RecordsStore.updateRecord, ha, RecordsStore.getRecordById, hpid]
      · have h' : RecordsStore.getRecordById rest i = some r := by
          simpa [RecordsStore.getRecordById, ha] using h
        simp only [RecordsStore.updateRecord, if_neg ha, RecordsStore.getRecordById]
        exact ih h'

/-! ## Tags split and join lemmas -/

theorem splitOnSemi_ne_nil (s : Str) : HomeView.splitOnSemi s ≠ [] := by
  cases s with
  | nil => simp [HomeView.splitOnSemi]
  | cons c rest =>
      by_cases hc : c = ';'
      · simp [HomeView.splitOnSemi, hc]
      · simp only [HomeView.splitOnSemi, if_neg hc]
        cases HomeView.splitOnSemi rest <;> simp

theorem splitOnSemi_no_semi (t : Str) (h : ';' ∉ t) :
    HomeView.splitOnSemi t = [t] := by
  induction t with
  | nil => rfl
  | cons c rest ih =>
      have hc : c ≠ ';' := fun hcc => h (hcc ▸ List.mem_cons_self c rest)
      have hrest : ';' ∉ rest := fun hm => h (List.mem_cons_of_mem c hm)
      simp [HomeView.splitOnSemi, hc, ih hrest]

theorem splitOnSemi_append (t s : Str) (h : ';' ∉ t) :
    HomeView.splitOnSemi (t ++ ';' :: s) = t :: HomeView.splitOnSemi s := by
  induction t with
  | nil => simp [HomeView.splitOnSemi]
  | cons c rest ih =>
      have hc : c ≠ ';' := fun hcc => h (hcc ▸ List.mem_cons_self c rest)
      have hrest : ';' ∉ rest := fun hm => h (List.mem_cons_of_mem c hm)
      simp [HomeView.splitOnSemi, hc, ih hrest]

theorem trim_space_cons (x : Str) : HomeView.trim (' ' :: x) = HomeView.trim x := by
  have h : HomeView.isJsSpace ' ' = true := by decide
  simp [HomeView.trim, List.dropWhile_cons, h]

theorem joinSemiSpace_ne_nil (x : Str) (xs : List Str) (hx : x ≠ []) :
    HomeView.joinSemiSpace (x :: xs) ≠ [] := by
  cases xs with
  | nil => simpa [HomeView.joinSemiSpace] using hx
  | cons y ys => simp [HomeView.joinSemiSpace]

/-- Joining with '; ' then splitting on ';' and trimming each segment restores
the original segments, provided none contains ';' and each is already
trimmed. -/
theorem join_split_trim (ts : List Str) :
    (∀ t ∈ ts, ';' ∉ t ∧ HomeView.trim t = t) → ts ≠ [] →
    (HomeView.splitOnSemi (HomeView.joinSemiSpace ts)).map HomeView.trim = ts := by
  induction ts with
  | nil => intro _ hne; exact absurd rfl hne
  | cons t rest ih =>
      intro h _
      obtain ⟨ht_semi, ht_trim⟩ := h t (List.mem_cons_self t rest)
      cases rest with
      | nil => simp [HomeView.joinSemiSpace, splitOnSemi_no_semi t ht_semi, ht_trim]
      | cons t2 rest2 =>
          have hrest : ∀ u ∈ t2 :: rest2, ';' ∉ u ∧ HomeView.trim u = u :=
            fun u hu => h u (List.mem_cons_of_mem t hu)
          have hjoin := ih hrest (by simp)
          have hstep : HomeView.joinSemiSpace (t :: t2 :: rest2)
              = t ++ ';' :: ' ' :: HomeView.joinSemiSpace (t2 :: rest2) := rfl
          rw [hstep, splitOnSemi_append t _ ht_semi]
          cases hsp : HomeView.splitOnSemi (HomeView.joinSemiSpace (t2 :: rest2)) with
          | nil => exact absurd hsp (splitOnSemi_ne_nil _)
          | cons g gs =>
              have hp : (' ' : Char) ≠ ';' := by decide
              have hspace :
                  HomeView.splitOnSemi (' ' :: HomeView.joinSemiSpace (t2 :: rest2))
                    = (' ' :: g) :: gs := by
                simp [HomeView.splitOnSemi, hp, hsp]
              rw [hspace]
              rw [hsp] at hjoin
              simp only [List.map_cons] at hjoin ⊢
              rw [ht_trim, trim_space_cons]
              exact congrArg (t :: ·) hjoin

/-! ## Fold-max lemmas (for addRow's fresh id) -/

theorem le_foldl_max_init (l : List Nat) (a : Nat) : a ≤ l.foldl max a := by
  induction l generalizing a with
  | nil => exact le_refl a
  | cons x xs ih =>
      simp only [List.foldl_cons]
      exact le_trans (le_max_left a x) (ih (max a x))

theorem mem_le_foldl_max (l : List Nat) : ∀ (a x : Nat), x ∈ l → x ≤ l.foldl max a := by
  induction l with
  | nil => intro a x hx; cases hx
  | cons y ys ih =>
      intro a x hx
      simp only [List.foldl_cons]
      rcases List.mem_cons.mp hx with rfl | hmem
      · exact le_trans (le_max_right a x) (le_foldl_max_init ys (max a x))
      · exact ih (max a y) x hmem

/-! ## Claim theorems -/

/-- C8: `updateRecord(id, partialFields)` overwrites exactly the named fields
of the first record whose id matches, leaving that record's other fields,
every other record, the list order and the list length unchanged; a missing
id is a silent no-op. -/
theorem C8_updateRecord_frame (s : List Record) (i : Nat) (p : RecordPatch) :
    ((∀ r ∈ s, r.id ≠ i) → RecordsStore.updateRecord s i p = s)
    ∧ (RecordsStore.updateRecord s i p).length = s.length
    ∧ (∀ (l₁ l₂ : List Record) (r : Record),
        s = l₁ ++ r :: l₂ → (∀ q ∈ l₁, q.id ≠ i) → r.id = i →
        RecordsStore.updateRecord s i p = l₁ ++ assignFields r p :: l₂)
    ∧ (∀ r : Record,
        (p.id = none → (assignFields r p).id = r.id)
        ∧ (p.tags = none → (assignFields r p).tags = r.tags)
        ∧ (p.type = none → (assignFields r p).type = r.type)
        ∧ (p.login = none → (assignFields r p).login = r.login)
        ∧ (p.password = none → (assignFields r p).password = r.password)
        ∧ (∀ v, p.tags = some v → (assignFields r p).tags = v)
        ∧ (∀ v, p.type = some v → (assignFields r p).type = v)
        ∧ (∀ v, p.login = some v → (assignFields r p).login = v)
        ∧ (∀ v, p.password = some v → (assignFields r p).password = v)) := by
  refine ⟨updateRecord_not_found s i p, updateRecord_length s i p, ?_, ?_⟩
  · intro l₁ l₂ r hs h₁ hr
    subst hs
    exact updateRecord_first_match l₁ l₂ r i p h₁ hr
  · intro r
    refine ⟨?_, ?_, ?_, ?_, ?_, ?_, ?_, ?_, ?_⟩ <;>
      first
        | (intro hnone; simp [assignFields, hnone])
        | (intro v hv; simp [assignFields, hv])

/-- C9: `addRow` assigns the id `max(existing row ids) + 1` on a non-empty row
list and 0 on an empty one, appends a record with that id and empty default
fields to both the row list and the store, and the new id differs from every
existing row id; in particular existing ids 0, 1, 3 yield the new id 4. -/
theorem C9_addRow_spec (l : List HomeView.Row) (store : List Record) :
    HomeView.addRow l store
      = (l ++ [HomeView.constructRow (HomeView.emptyRecord (HomeView.latestIdOf l))],
         store ++ [HomeView.emptyRecord (HomeView.latestIdOf l)])
    ∧ (l = [] → HomeView.latestIdOf l = 0)
    ∧ (l ≠ [] → HomeView.latestIdOf l = HomeView.maxIds l + 1)
    ∧ (∀ row ∈ l, row.id ≠ HomeView.latestIdOf l)
    ∧ HomeView.emptyRecord (HomeView.latestIdOf l)
        = { id := HomeView.latestIdOf l, tags := .labels [], type := str "",
            login := str "", password := some (str "") }
    ∧ HomeView.latestIdOf
        [⟨0, [], [], [], []⟩, ⟨1, [], [], [], []⟩, ⟨3, [], [], [], []⟩] = 4 := by
  refine ⟨rfl, ?_, ?_, ?_, rfl, by decide⟩
  · intro hnil
    subst hnil
    rfl
  · intro hne
    simp only [HomeView.latestIdOf]
    rw [if_pos (by simpa [List.length_pos] using hne)]
  · intro row hrow
    have hne : l ≠ [] := by
      intro hnil
      subst hnil
      cases hrow
    have h1 : HomeView.latestIdOf l = HomeView.maxIds l + 1 := by
      simp only [HomeView.latestIdOf]
      rw [if_pos (by simpa [List.length_pos] using hne)]
    have h2 : row.id ≤ HomeView.maxIds l :=
      mem_le_foldl_max _ 0 row.id (List.mem_map_of_mem HomeView.Row.id hrow)
    omega

/-- C7 (code bug): deleting a present id removes exactly that row and record,
but deleting an absent id is not a no-op: `findIndex` returns -1 (never
undefined), so the guard always passes and the rows become
`slice(0, -1) ++ slice(0)` — the list minus its last element followed by a
full copy — while the store is left unchanged. -/
theorem C7_deleteRow_missing_id_corrupts_rows :
    (HomeView.deleteRow HomeView.rows RecordsStore.initialRecords 99).2
        = RecordsStore.initialRecords
    ∧ (HomeView.deleteRow HomeView.rows RecordsStore.initialRecords 99).1
        = HomeView.rows.dropLast ++ HomeView.rows
    ∧ (HomeView.deleteRow HomeView.rows RecordsStore.initialRecords 99).1.length = 5
    ∧ (HomeView.deleteRow HomeView.rows RecordsStore.initialRecords 99).1
        ≠ HomeView.rows
    ∧ (HomeView.deleteRow HomeView.rows RecordsStore.initialRecords 2).1
        = HomeView.rows.filter (fun r => r.id ≠ 2)
    ∧ (HomeView.deleteRow HomeView.rows RecordsStore.initialRecords 2).2
        = RecordsStore.initialRecords.filter (fun r => r.id ≠ 2) := by
  decide

/-- C2 counterexample: in the initial rows there is a row whose type is 'ldap'
and whose secret cell is NOT rendered as an editable input — refuting
"visible/editable if and only if the row's type equals 'directory' (ldap)". -/
theorem C2_counterexample :
    ∃ row ∈ HomeView.rows,
      row.typeValue = str "ldap"
      ∧ HomeView.passwordCellHide row .password = false := by
  decide

/-- C2 amended: the secret (password) cell renders as an editable input if and
only if the row's current type is NOT 'ldap'; in particular committing type to
'ldap' hides the secret cell rather than revealing it. -/
theorem C2_amended_password_cell_visibility (row : HomeView.Row) :
    HomeView.passwordCellHide row .password = true ↔ row.typeValue ≠ str "ldap" := by
  by_cases h : row.typeValue = str "ldap" <;>
    simp [HomeView.passwordCellHide, HomeView.cellKind, h]

/-- C4 (code bug): committing the non-empty tags string "a;" stores a label
with empty text: `.filter(Boolean)` filters the already-wrapped label objects,
and an object is always truthy, so empty segments are never discarded. -/
theorem C4_empty_tag_segment_kept :
    HomeView.packTags (str "a;") = [⟨str "a"⟩, ⟨str ""⟩]
    ∧ HomeView.tagsCommitValue (str "a;") = .labels [⟨str "a"⟩, ⟨str ""⟩]
    ∧ Label.mk (str "") ∈ HomeView.packTags (str "a;") := by
  decide

/-- C5 counterexample: for the empty label list, the builder's joined string
is "" and committing it skips the split transformation, storing the raw
string "" — not a label list — so the round trip fails at the empty list. -/
theorem C5_counterexample :
    HomeView.unpackTags (.labels []) = str ""
    ∧ HomeView.tagsCommitValue (HomeView.unpackTags (.labels []))
        = TagsField.raw (str "")
    ∧ HomeView.tagsCommitValue (HomeView.unpackTags (.labels []))
        ≠ TagsField.labels [] := by
  decide

/-- C5 amended: for every NON-EMPTY list of labels whose texts are non-empty,
contain no ';' and carry no leading or trailing whitespace, joining with '; '
and committing the joined string through the tags transformation restores the
original label list. -/
theorem C5_amended_tags_roundtrip (l : List Label) (hne : l ≠ [])
    (hlab : ∀ t ∈ l, t.text ≠ [] ∧ ';' ∉ t.text ∧ HomeView.trim t.text = t.text) :
    HomeView.tagsCommitValue (HomeView.unpackTags (.labels l)) = .labels l := by
  obtain ⟨t0, rest, rfl⟩ : ∃ t0 rest, l = t0 :: rest := by
    cases l with
    | nil => exact absurd rfl hne
    | cons a b => exact ⟨a, b, rfl⟩
  have ht0 := (hlab t0 (List.mem_cons_self t0 rest)).1
  have hjoin_ne : HomeView.unpackTags (.labels (t0 :: rest)) ≠ [] := by
    simpa [HomeView.unpackTags] using
      joinSemiSpace_ne_nil t0.text (rest.map Label.text) ht0
  have hts : ∀ t ∈ (t0 :: rest).map Label.text, ';' ∉ t ∧ HomeView.trim t = t := by
    intro t ht
    obtain ⟨x, hx, rfl⟩ := List.mem_map.mp ht
    exact ⟨(hlab x hx).2.1, (hlab x hx).2.2⟩
  have key := join_split_trim ((t0 :: rest).map Label.text) hts (by simp)
  have hmk : ∀ x : Label, Label.mk x.text = x := fun x => rfl
  have hfil : ∀ L : List Label, L.filter HomeView.jsTruthy = L := by
    intro L
    induction L with
    | nil => rfl
    | cons a b ihb => simp [List.filter, HomeView.jsTruthy, ihb]
  have hsplit : (HomeView.splitOnSemi
        (HomeView.joinSemiSpace ((t0 :: rest).map Label.text))).map
      (fun item => Label.mk (HomeView.trim item))
      = ((HomeView.splitOnSemi
          (HomeView.joinSemiSpace ((t0 :: rest).map Label.text))).map
        HomeView.trim).map Label.mk := by
    simp [List.map_map]
  simp only [HomeView.tagsCommitValue]
  rw [if_pos (by simpa [List.length_pos] using hjoin_ne)]
  simp only [HomeView.packTags, HomeView.unpackTags, TagsField.labels.injEq]
  have hmapid : ∀ L : List Label, L.map (Label.mk ∘ Label.text) = L := by
    intro L
    induction L with
    | nil => rfl
    | cons a b ihb =>
        rw [List.map_cons, ihb]
        exact congrArg (· :: b) (hmk a)
  rw [hfil, hsplit, key, List.map_map]
  exact hmapid (t0 :: rest)

/-- C6 (code bug): `required("")` fails with the localized error, `required("x")`
succeeds, and the select shape fails exactly when its value sub-field is
undefined or empty — but `required(undefined)` THROWS (reads `.value` of
undefined, modelled as `none`) instead of returning the error string. -/
theorem C6_required_eval :
    HomeView.required (.vstr (str "")) = some (.err HomeView.errorTextRequired)
    ∧ HomeView.required (.vstr (str "x")) = some .ok
    ∧ HomeView.required .vundef = none
    ∧ HomeView.required .vundef ≠ some (.err HomeView.errorTextRequired)
    ∧ HomeView.required (.vsel none (some (str "LDAP")))
        = some (.err HomeView.errorTextRequired)
    ∧ HomeView.required (.vsel (some (str "")) (some (str "LDAP")))
        = some (.err HomeView.errorTextRequired)
    ∧ HomeView.required (.vsel (some (str "ldap")) (some (str "LDAP")))
        = some .ok := by
  decide

/-- The commit controller's net effect for a type commit with value 'ldap':
write the type, then a second update nulling the password. -/
theorem commit_type_ldap_eq (store : List Record) (row : HomeView.Row)
    (hldap : row.typeValue = str "ldap") :
    HomeView.updateRecord store row .type true
      = RecordsStore.updateRecord
          (RecordsStore.updateRecord store row.id { type := some (str "ldap") })
          row.id { password := some none } := by
  have hval : HomeView.validateCell row .type = true := by
    simp [HomeView.validateCell, hldap, HomeView.required, HomeView.ruleOkOpt, str]
  simp only [HomeView.updateRecord, hval, hldap, Bool.not_true, Bool.or_self,
    Bool.false_eq_true, if_false, if_true]

/-- The commit controller's net effect for a type commit with a non-empty
value other than 'ldap': a single update writing the type. -/
theorem commit_type_not_ldap_eq (store : List Record) (row : HomeView.Row)
    (hnot : row.typeValue ≠ str "ldap") (hlen : row.typeValue.length > 0) :
    HomeView.updateRecord store row .type true
      = RecordsStore.updateRecord store row.id { type := some row.typeValue } := by
  have hval : HomeView.validateCell row .type = true := by
    simp [HomeView.validateCell, HomeView.required, HomeView.ruleOkOpt, hlen]
  simp only [HomeView.updateRecord, hval, Bool.not_true, Bool.or_self,
    Bool.false_eq_true, if_false, if_neg hnot]

/-- C1 counterexample: the store's initial record list already violates the
claimed invariant — it contains a record whose type is not 'ldap' and whose
secret (password) is non-null. -/
theorem C1_counterexample :
    ∃ r ∈ RecordsStore.initialRecords, r.type ≠ str "ldap" ∧ r.password ≠ none := by
  decide

/-- C1 amended: no secret/type invariant holds — the initial store violates it
— and the commit controller nulls a record's secret when type is committed TO
'ldap', while committing type away from 'ldap' leaves the secret unchanged. -/
theorem C1_amended_secret_nulling (store : List Record) (row : HomeView.Row)
    (r₀ : Record) (hfind : RecordsStore.getRecordById store row.id = some r₀) :
    (row.typeValue = str "ldap" →
      RecordsStore.getRecordById (HomeView.updateRecord store row .type true) row.id
        = some { r₀ with type := str "ldap", password := none })
    ∧ (row.typeValue ≠ str "ldap" → row.typeValue.length > 0 →
      RecordsStore.getRecordById (HomeView.updateRecord store row .type true) row.id
        = some { r₀ with type := row.typeValue })
    ∧ ∃ r ∈ RecordsStore.initialRecords, r.type ≠ str "ldap" ∧ r.password ≠ none := by
  refine ⟨?_, ?_, by decide⟩
  · intro hldap
    rw [commit_type_ldap_eq store row hldap]
    have h1 := getRecordById_updateRecord store row.id
      { type := some (str "ldap") } r₀ rfl hfind
    rw [getRecordById_updateRecord _ row.id { password := some none } _ rfl h1]
    simp [assignFields]
  · intro hnot hlen
    rw [commit_type_not_ldap_eq store row hnot hlen]
    rw [getRecordById_updateRecord store row.id
      { type := some row.typeValue } r₀ rfl hfind]
    simp [assignFields]

/-- C3: committing the type field with value 'ldap' writes the type and then
immediately issues a second `update(id, {password: null})`, so the record's
secret is null afterwards; committing type to 'local' next only rewrites the
type, leaving the secret null. -/
theorem C3_type_ldap_then_local (store : List Record) (row row2 : HomeView.Row)
    (r₀ : Record) (hfind : RecordsStore.getRecordById store row.id = some r₀)
    (hldap : row.typeValue = str "ldap")
    (hid : row2.id = row.id) (hlocal : row2.typeValue = str "local") :
    HomeView.updateRecord store row .type true
      = RecordsStore.updateRecord
          (RecordsStore.updateRecord store row.id { type := some (str "ldap") })
          row.id { password := some none }
    ∧ RecordsStore.getRecordById (HomeView.updateRecord store row .type true) row.id
        = some { r₀ with type := str "ldap", password := none }
    ∧ RecordsStore.getRecordById
        (HomeView.updateRecord (HomeView.updateRecord store row .type true) row2 .type true)
        row.id
      = some { r₀ with type := str "local", password := none } := by
  have hafter : RecordsStore.getRecordById
      (HomeView.updateRecord store row .type true) row.id
      = some { r₀ with type := str "ldap", password := none } := by
    rw [commit_type_ldap_eq store row hldap]
    have h1 := getRecordById_updateRecord store row.id
      { type := some (str "ldap") } r₀ rfl hfind
    rw [getRecordById_updateRecord _ row.id { password := some none } _ rfl h1]
    simp [assignFields]
  refine ⟨commit_type_ldap_eq store row hldap, hafter, ?_⟩
  have hnot2 : row2.typeValue ≠ str "ldap" := by
    rw [hlocal]
    decide
  rw [commit_type_not_ldap_eq _ row2 hnot2 (by rw [hlocal]; decide), hid]
  rw [getRecordById_updateRecord _ row.id
    { type := some row2.typeValue } _ rfl hafter]
  simp [assignFields, hlocal]

/-- C10: committing the tags cell while the raw string is empty skips the
split transformation and writes the empty string itself, so the stored tags
value becomes a raw string and not a list of label objects. -/
theorem C10_empty_tags_commit_stores_raw_string (store : List Record)
    (row : HomeView.Row) (r₀ : Record)
    (hfind : RecordsStore.getRecordById store row.id = some r₀)
    (hempty : row.tagsValue = []) :
    HomeView.updateRecord store row .tags true
      = RecordsStore.updateRecord store row.id { tags := some (.raw (str "")) }
    ∧ RecordsStore.getRecordById (HomeView.updateRecord store row .tags true) row.id
        = some { r₀ with tags := TagsField.raw (str "") }
    ∧ ∀ l : List Label, TagsField.raw (str "") ≠ TagsField.labels l := by
  have hval : HomeView.validateCell row .tags = true := by
    simp [HomeView.validateCell, hempty, HomeView.limitedLength, HomeView.ruleOk]
  have hcommit : HomeView.tagsCommitValue row.tagsValue = .raw (str "") := by
    rw [hempty]
    rfl
  have hstep : HomeView.updateRecord store row .tags true
      = RecordsStore.updateRecord store row.id { tags := some (.raw (str "")) } := by
    simp only [HomeView.updateRecord, hval, Bool.not_true, Bool.or_self,
      Bool.false_eq_true, if_false, hcommit]
  refine ⟨hstep, ?_, by intro l; simp⟩
  rw [hstep]
  have h1 := getRecordById_updateRecord store row.id
    { tags := some (.raw (str "")) } r₀ rfl hfind
  rw [h1]
  simp [assignFields]

/-! ## Witnesses: the hypothesised claim theorems applied at concrete inputs -/

/-- C1 witness: committing type 'ldap' on the initial store's record 1 nulls
its password. -/
theorem C1_witness :
    RecordsStore.getRecordById
      (HomeView.updateRecord RecordsStore.initialRecords
        ⟨1, str "XXX", str "ldap", str "", str ""⟩ .type true) 1
      = some { id := 1, tags := .labels [⟨str "XXX"⟩], type := str "ldap",
               login := str "", password := none } :=
  (C1_amended_secret_nulling RecordsStore.initialRecords
      ⟨1, str "XXX", str "ldap", str "", str ""⟩
      { id := 1, tags := .labels [⟨str "XXX"⟩], type := str "ldap",
        login := str "", password := some (str "") }
      (by decide)).1 rfl

/-- C3 witness: on the initial store's record 2, committing type 'ldap' and
then 'local' leaves the password null. -/
theorem C3_witness :
    RecordsStore.getRecordById
      (HomeView.updateRecord
        (HomeView.updateRecord RecordsStore.initialRecords
          ⟨2, str "", str "ldap", str "", str ""⟩ .type true)
        ⟨2, str "", str "local", str "", str ""⟩ .type true) 2
      = some { id := 2, tags := .labels [⟨str "XXX"⟩, ⟨str "YYYYYYYYY"⟩],
               type := str "local", login := str "Значение", password := none } :=
  (C3_type_ldap_then_local RecordsStore.initialRecords
      ⟨2, str "", str "ldap", str "", str ""⟩
      ⟨2, str "", str "local", str "", str ""⟩
      { id := 2, tags := .labels [⟨str "XXX"⟩, ⟨str "YYYYYYYYY"⟩],
        type := str "local", login := str "Значение", password := some (str "") }
      (by decide) rfl rfl rfl).2.2

/-- C5 witness: the labels "aa", "b" survive the join/commit round trip. -/
theorem C5_witness :
    HomeView.tagsCommitValue
        (HomeView.unpackTags (.labels [⟨str "aa"⟩, ⟨str "b"⟩]))
      = .labels [⟨str "aa"⟩, ⟨str "b"⟩] :=
  C5_amended_tags_roundtrip [⟨str "aa"⟩, ⟨str "b"⟩] (by decide) (by decide)

/-- C10 witness: committing the empty tags string of a fresh record stores the
raw empty string. -/
theorem C10_witness :
    RecordsStore.getRecordById
      (HomeView.updateRecord [HomeView.emptyRecord 7]
        (HomeView.constructRow (HomeView.emptyRecord 7)) .tags true)
      (HomeView.constructRow (HomeView.emptyRecord 7)).id
      = some { HomeView.emptyRecord 7 with tags := TagsField.raw (str "") } :=
  (C10_empty_tags_commit_stores_raw_string [HomeView.emptyRecord 7]
      (HomeView.constructRow (HomeView.emptyRecord 7)) (HomeView.emptyRecord 7)
      (by decide) rfl).2.1

end Saasoft
